import Mathlib

/-!
Verification of the unit-conversion and recipe-ingredient-to-inventory
reconciliation engine of the Smart Kitchen Inventory Management System.

The Python source (food/views.py) is embedded shallowly:

* quantities (Python floats) are modeled as rationals; every arithmetic
  operation appearing in the source is exact on the values the claims use,
* Python strings are Lean strings; strip / lower / rstrip / split and the
  substring test are re-implemented below with Python semantics
  (ASCII case folding, which is all the source vocabulary uses),
* the Django ORM is modeled as an explicit list of records scoped by a
  numeric user id; filter(...).first() is List.find?, save() rewrites the
  first matching record in place and delete() erases it,
* the one place the source can raise (float division by zero inside
  parse_ingredient_string, where only ValueError is caught) is modeled by
  an Except result whose error value is the uncaught Python exception.
-/

/-! ## Python string primitives -/

/-- Python str.isspace for the characters the re module class \s covers. -/
def pyIsSpace (c : Char) : Bool :=
  c = ' ' || c = '\t' || c = '\n' || c = '\r' || c = '\x0b' || c = '\x0c'

/-- Python str.strip(): drop whitespace from both ends. -/
def pyStrip (s : String) : String :=
  String.mk (((s.toList.dropWhile pyIsSpace).reverse.dropWhile pyIsSpace).reverse)

/-- Python str.lower() restricted to ASCII, which covers every unit token
and trigger word in the source. -/
def pyLower (s : String) : String :=
  String.mk (s.toList.map Char.toLower)

/-- Python str.rstrip, with the char set being a single letter s: drops every
trailing occurrence. -/
def pyRstripS (s : String) : String :=
  String.mk ((s.toList.reverse.dropWhile (· = 's')).reverse)

/-- listStartsWith needle hay: needle is a prefix of hay. -/
def listStartsWith : List Char → List Char → Bool
  | [], _ => true
  | _ :: _, [] => false
  | a :: as, b :: bs => a == b && listStartsWith as bs

/-- listHasSub needle hay: needle occurs contiguously inside hay. -/
def listHasSub (needle : List Char) : List Char → Bool
  | [] => needle.isEmpty
  | c :: rest => listStartsWith needle (c :: rest) || listHasSub needle rest

/-- Python substring containment: needle in hay. -/
def strContainsSub (needle hay : String) : Bool :=
  listHasSub needle.toList hay.toList

/-- Python str.split() on a char list: split on whitespace runs, no empties. -/
def pySplitWsAux : List Char → List Char → List (List Char)
  | [], acc => if acc.isEmpty then [] else [acc.reverse]
  | c :: rest, acc =>
    if pyIsSpace c then
      if acc.isEmpty then pySplitWsAux rest []
      else acc.reverse :: pySplitWsAux rest []
    else pySplitWsAux rest (c :: acc)

/-- Python str.split() without arguments. -/
def pySplitWs (l : List Char) : List (List Char) :=
  pySplitWsAux l []

/-! ## Unit conversion engine (views.py convert_quantity) -/

/-- The unit normalization applied inside convert_quantity:
u.strip().lower().rstrip(the letter s). -/
def normalizeUnit (u : String) : String :=
  pyRstripS (pyLower (pyStrip u))

/-- The volume_to_ml dict of convert_quantity, millilitres per unit. -/
def volume_to_ml_table : List (String × ℚ) :=
  [("ml", 1), ("l", 1000), ("liter", 1000), ("liters", 1000),
   ("cup", 240), ("cups", 240),
   ("tbsp", 15), ("tablespoon", 15),
   ("tsp", 5), ("teaspoon", 5),
   ("gal", 3785), ("gallon", 3785),
   ("oz", 2957/100), ("fluid ounce", 2957/100)]

/-- Dict membership test plus indexing on volume_to_ml. -/
def volume_to_ml (u : String) : Option ℚ :=
  (volume_to_ml_table.find? (fun p => p.1 == u)).map (fun p => p.2)

/-- The weight_to_g dict of convert_quantity, grams per unit. -/
def weight_to_g_table : List (String × ℚ) :=
  [("g", 1), ("gram", 1), ("grams", 1),
   ("kg", 1000), ("kilogram", 1000), ("kilograms", 1000),
   ("lb", 45359/100), ("pound", 45359/100), ("pounds", 45359/100),
   ("oz", 2835/100), ("ounce", 2835/100), ("ounces", 2835/100)]

/-- Dict membership test plus indexing on weight_to_g. -/
def weight_to_g (u : String) : Option ℚ :=
  (weight_to_g_table.find? (fun p => p.1 == u)).map (fun p => p.2)

/-- Trigger words of the leafy-greens / herbs override. -/
def herbTriggers : List String :=
  ["coriander", "spinach", "mint", "methi", "palak"]

/-- The item-specific override block of convert_quantity, flattened: the
bread block runs first, then the herbs block; nm is the lower-cased item
name, fu and tu the normalized units. -/
def itemSpecific (qty : ℚ) (fu tu nm : String) : Option ℚ :=
  if strContainsSub "bread" nm = true ∧ fu = "packet" ∧ tu = "slice" then
    some (qty * 15)
  else if strContainsSub "bread" nm = true ∧ fu = "slice" ∧ tu = "packet" then
    some (qty / 15)
  else if (herbTriggers.any (fun x => strContainsSub x nm)) = true
      ∧ fu = "packet" ∧ tu = "bunch" then
    some qty
  else if (herbTriggers.any (fun x => strContainsSub x nm)) = true
      ∧ fu = "bunch" ∧ tu = "packet" then
    some qty
  else none

/-- The if item_name guard of convert_quantity: overrides run only for a
present, non-empty item name, on its lower-cased text. -/
def itemNameRes (qty : ℚ) (fu tu : String) : Option String → Option ℚ
  | none => none
  | some nm => if nm = "" then none else itemSpecific qty fu tu (pyLower nm)

/-- views.py convert_quantity. Returns none for the Python sentinel None.
The cross-class bridge at the end is written as two ordered lookups; this
matches the Python disjunctive guard because whenever its first inner test
(from_unit in volume_to_ml) succeeds under the guard, the earlier same-class
branches have already excluded to_unit from the volume table. -/
def convert_quantity (qty : ℚ) (from_unit to_unit : String)
    (item_name : Option String) : Option ℚ :=
  if from_unit = to_unit then some qty
  else
    let fu := normalizeUnit from_unit
    let tu := normalizeUnit to_unit
    match itemNameRes qty fu tu item_name with
    | some r => some r
    | none =>
      match volume_to_ml fu, volume_to_ml tu with
      | some vf, some vt => some (qty * vf / vt)
      | _, _ =>
        match weight_to_g fu, weight_to_g tu with
        | some wf, some wt => some (qty * wf / wt)
        | _, _ =>
          match volume_to_ml fu, weight_to_g tu with
          | some vf, some wt => some (qty * vf / wt)
          | _, _ =>
            match weight_to_g fu, volume_to_ml tu with
            | some wf, some vt => some (qty * wf / vt)
            | _, _ => none

/-! ## Ingredient string parser (views.py parse_ingredient_string) -/

/-- The uncaught Python exceptions this embedding tracks. -/
inductive PyExc where
  | zeroDivisionError
deriving DecidableEq

/-- Value of a list of ASCII digit characters. -/
def digitsToNat (l : List Char) : Nat :=
  l.foldl (fun n c => 10 * n + (c.toNat - 48)) 0

/-- Python float() on the digit and digit-point-digit strings this parser can
produce (whitespace-trimmed, no signs or exponents occur here). none models a
ValueError. -/
def pyFloat (s : String) : Option ℚ :=
  let t := (pyStrip s).toList
  let intPart := t.takeWhile Char.isDigit
  let rest := t.dropWhile Char.isDigit
  match rest with
  | [] => if intPart.isEmpty then none else some (digitsToNat intPart)
  | '.' :: fracPart =>
    if fracPart.all Char.isDigit ∧ (intPart ≠ [] ∨ fracPart ≠ []) then
      some ((digitsToNat intPart : ℚ) + (digitsToNat fracPart : ℚ) / (10 ^ fracPart.length))
    else none
  | _ => none

/-- First regex alternative: digits, whitespace, digits, slash, digits
(a mixed fraction such as 1 1/2). Returns the token and the remainder. -/
def altMixed (l : List Char) : Option (List Char × List Char) :=
  let d1 := l.takeWhile Char.isDigit
  let r1 := l.dropWhile Char.isDigit
  if d1.isEmpty then none
  else
    let sp := r1.takeWhile pyIsSpace
    let r2 := r1.dropWhile pyIsSpace
    if sp.isEmpty then none
    else
      let d2 := r2.takeWhile Char.isDigit
      let r3 := r2.dropWhile Char.isDigit
      if d2.isEmpty then none
      else
        match r3 with
        | '/' :: r4 =>
          let d3 := r4.takeWhile Char.isDigit
          let r5 := r4.dropWhile Char.isDigit
          if d3.isEmpty then none
          else some (d1 ++ sp ++ d2 ++ '/' :: d3, r5)
        | _ => none

/-- Second regex alternative: digits, slash, digits (a fraction like 1/2). -/
def altFrac (l : List Char) : Option (List Char × List Char) :=
  let d1 := l.takeWhile Char.isDigit
  let r1 := l.dropWhile Char.isDigit
  if d1.isEmpty then none
  else
    match r1 with
    | '/' :: r2 =>
      let d2 := r2.takeWhile Char.isDigit
      let r3 := r2.dropWhile Char.isDigit
      if d2.isEmpty then none else some (d1 ++ '/' :: d2, r3)
    | _ => none

/-- Third regex alternative: digits, point, digits (a decimal like 1.5). -/
def altDec (l : List Char) : Option (List Char × List Char) :=
  let d1 := l.takeWhile Char.isDigit
  let r1 := l.dropWhile Char.isDigit
  if d1.isEmpty then none
  else
    match r1 with
    | '.' :: r2 =>
      let d2 := r2.takeWhile Char.isDigit
      let r3 := r2.dropWhile Char.isDigit
      if d2.isEmpty then none else some (d1 ++ '.' :: d2, r3)
    | _ => none

/-- Fourth regex alternative: a plain integer. -/
def altInt (l : List Char) : Option (List Char × List Char) :=
  let d1 := l.takeWhile Char.isDigit
  let r1 := l.dropWhile Char.isDigit
  if d1.isEmpty then none else some (d1, r1)

/-- The leading-number regex group of parse_ingredient_string: the four
alternatives are tried in the written order, as the re module does. Each
alternative is deterministic maximal-munch, which agrees with backtracking
here because every boundary pair (digit before whitespace, slash or point)
is disjoint. -/
def matchLeadingNumber (l : List Char) : Option (List Char × List Char) :=
  match altMixed l with
  | some r => some r
  | none =>
    match altFrac l with
    | some r => some r
    | none =>
      match altDec l with
      | some r => some r
      | none => altInt l

/-- The quantity computation of parse_ingredient_string, inside the
try/except ValueError handler: a failed float() falls back to 1.0, but a
zero denominator raises ZeroDivisionError, which the handler does not catch. -/
def parseQty (numStr : List Char) : Except PyExc ℚ :=
  if numStr.contains ' ' && numStr.contains '/' then
    match pySplitWs numStr with
    | [whole, frac] =>
      match frac.splitOn '/' with
      | [num, den] =>
        match pyFloat (String.mk whole), pyFloat (String.mk num), pyFloat (String.mk den) with
        | some w, some n, some d =>
          if d = 0 then .error .zeroDivisionError else .ok (w + n / d)
        | _, _, _ => .ok 1
      | _ => .ok 1
    | _ => .ok 1
  else if numStr.contains '/' then
    match numStr.splitOn '/' with
    | [num, den] =>
      match pyFloat (String.mk num), pyFloat (String.mk den) with
      | some n, some d =>
        if d = 0 then .error .zeroDivisionError else .ok (n / d)
      | _, _ => .ok 1
    | _ => .ok 1
  else
    match pyFloat (String.mk numStr) with
    | some v => .ok v
    | none => .ok 1

/-- The recognized-unit vocabulary of parse_ingredient_string, in source
order. -/
def parser_units : List String :=
  ["cup", "cups", "tbsp", "tsp", "g", "kg", "ml", "l", "oz", "lb",
   "piece", "pieces", "slice", "slices", "clove", "cloves", "pinch",
   "bunch", "packet"]

/-- views.py parse_ingredient_string. ok carries (quantity, unit, name);
error carries the uncaught exception. -/
def parse_ingredient_string (ingredient_str : String) : Except PyExc (ℚ × String × String) :=
  let s := pyStrip ingredient_str
  match matchLeadingNumber s.toList with
  | none => .ok (1, "as needed", s)
  | some (numStr, after) =>
    -- the regex consumes \s* then captures the rest of the line, and the
    -- source strips the captured group
    let rest := pyStrip (String.mk ((after.dropWhile pyIsSpace).takeWhile (fun c => c ≠ '\n')))
    match parseQty numStr with
    | .error e => .error e
    | .ok qty =>
      match pySplitWs rest.toList with
      | [] => .ok (qty, "as needed", s)
      | w0 :: ws =>
        let pot := pyRstripS (pyLower (String.mk w0))
        match parser_units.find? (fun u => pot == u || pot == u ++ "s") with
        | some u => .ok (qty, u, String.intercalate " " (ws.map String.mk))
        | none => .ok (qty, "unit", rest)

/-- Modeled from the spec: the resolution order stated by the specification
for convert ("first match wins": item-specific override, same-class table,
cross-class bridge, Unconvertible), with no raw-equality short circuit.
Used to compare the stated resolution with convert_quantity. -/
def convertResolution (qty : ℚ) (from_unit to_unit : String)
    (item_name : Option String) : Option ℚ :=
  let fu := normalizeUnit from_unit
  let tu := normalizeUnit to_unit
  match itemNameRes qty fu tu item_name with
  | some r => some r
  | none =>
    match volume_to_ml fu, volume_to_ml tu with
    | some vf, some vt => some (qty * vf / vt)
    | _, _ =>
      match weight_to_g fu, weight_to_g tu with
      | some wf, some wt => some (qty * wf / wt)
      | _, _ =>
        match volume_to_ml fu, weight_to_g tu with
        | some vf, some wt => some (qty * vf / wt)
        | _, _ =>
          match weight_to_g fu, volume_to_ml tu with
          | some wf, some vt => some (qty * wf / vt)
          | _, _ => none

/-! ## Data model (food/models.py) -/

/-- models.py Grocery, the inventory record. Dates and category are opaque
strings here; manufacturing_date is nullable. -/
structure Grocery where
  id : Nat
  user : Nat
  grocery_name : String
  quantity : ℚ
  unit : String
  ex_date : String
  manufacturing_date : Option String
  grocerie_type : String
deriving DecidableEq

/-- models.py Receipe_Ingredients joined with its Ingredient: the unit
column is declared blank=True, null=True, hence the Option. -/
structure RecipeIngredient where
  ingredient_name : String
  quantity : ℚ
  unit : Option String
deriving DecidableEq

/-- Rewrite the first record satisfying p with f, as a Django save() after a
filter(...).first() does. -/
def updateFirst {α : Type} (p : α → Bool) (f : α → α) : List α → List α
  | [] => []
  | g :: rest => if p g then f g :: rest else g :: updateFirst p f rest

/-! ## Deduction planner, operation B (views.py deduct_ingredients) -/

/-- One entry of the JSON deductions list; grocery_id is absent when the
key is missing. -/
structure DeductionEntry where
  grocery_id : Option Nat
  deduct_qty : ℚ
deriving DecidableEq

/-- Result state of deduct_ingredients: the surviving store plus the two
reported counters. -/
structure DeductResult where
  store : List Grocery
  updated_count : Nat
  deleted_count : Nat
deriving DecidableEq

/-- The ORM filter pk=grocery_id, user=request.user. -/
def groceryKey (uid gid : Nat) (g : Grocery) : Bool :=
  g.id == gid && g.user == uid

/-- One iteration of the deduct_ingredients loop. A missing or falsy id
(Python treats 0 as falsy) or a non-positive amount is skipped, as is an id
that resolves to no record of the requesting user. -/
def deductStep (uid : Nat) (st : DeductResult) (e : DeductionEntry) : DeductResult :=
  match e.grocery_id with
  | none => st
  | some gid =>
    if gid = 0 ∨ e.deduct_qty ≤ 0 then st
    else
      match st.store.find? (groceryKey uid gid) with
      | none => st
      | some g =>
        if g.quantity ≤ e.deduct_qty then
          { store := st.store.eraseP (groceryKey uid gid)
            updated_count := st.updated_count
            deleted_count := st.deleted_count + 1 }
        else
          { store := updateFirst (groceryKey uid gid)
              (fun r => { r with quantity := r.quantity - e.deduct_qty }) st.store
            updated_count := st.updated_count + 1
            deleted_count := st.deleted_count }

/-- views.py deduct_ingredients over a whole request body. -/
def deduct_ingredients (uid : Nat) (deductions : List DeductionEntry)
    (store : List Grocery) : DeductResult :=
  deductions.foldl (deductStep uid) ⟨store, 0, 0⟩

/-! ## Bill merge resolver (views.py save_bill_items) -/

/-- One scanned line item of the bill-save request. -/
structure BillItem where
  name : String
  quantity : ℚ
  unit : String
  expiry : String
  mfd : Option String
  category : Option String
deriving DecidableEq

/-- The ORM filter user=request.user, grocery_name iexact bg_name. -/
def billNameKey (uid : Nat) (bg_name : String) (g : Grocery) : Bool :=
  g.user == uid && pyLower g.grocery_name == pyLower bg_name

/-- The Grocery.objects.create call of save_bill_items: an empty mfd string
becomes null, a falsy category becomes Others. -/
def newGroceryOfItem (uid nid : Nat) (item : BillItem) : Grocery :=
  { id := nid
    user := uid
    grocery_name := pyStrip item.name
    quantity := item.quantity
    unit := item.unit
    ex_date := item.expiry
    manufacturing_date := match item.mfd with | some "" => none | x => x
    grocerie_type := match item.category with
      | none => "Others"
      | some "" => "Others"
      | some c => c }

/-- State threaded through the save_bill_items loop; next_id models the
auto-increment primary key for created records. -/
structure BillState where
  store : List Grocery
  next_id : Nat
  saved_count : Nat
deriving DecidableEq

/-- One iteration of the save_bill_items loop: merge into the first
same-name record of the user when units match case-insensitively or the
scanned unit converts to the existing one (the stripped scanned name,
bg_name in the source, is passed as the item hint), else create a fresh
record; saved_count always increments. -/
def save_bill_step (uid : Nat) (st : BillState) (item : BillItem) : BillState :=
  match st.store.find? (billNameKey uid (pyStrip item.name)) with
  | some existing =>
    if pyLower existing.unit = pyLower item.unit then
      { st with
        store := updateFirst (billNameKey uid (pyStrip item.name))
          (fun g => { g with quantity := g.quantity + item.quantity }) st.store
        saved_count := st.saved_count + 1 }
    else
      match convert_quantity item.quantity item.unit existing.unit (some (pyStrip item.name)) with
      | some cq =>
        { st with
          store := updateFirst (billNameKey uid (pyStrip item.name))
            (fun g => { g with quantity := g.quantity + cq }) st.store
          saved_count := st.saved_count + 1 }
      | none =>
        { store := st.store ++ [newGroceryOfItem uid st.next_id item]
          next_id := st.next_id + 1
          saved_count := st.saved_count + 1 }
  | none =>
    { store := st.store ++ [newGroceryOfItem uid st.next_id item]
      next_id := st.next_id + 1
      saved_count := st.saved_count + 1 }

/-- views.py save_bill_items over a whole request body. -/
def save_bill_items (uid : Nat) (items : List BillItem) (store : List Grocery)
    (startId : Nat) : BillState :=
  items.foldl (save_bill_step uid) ⟨store, startId, 0⟩

/-! ## Inventory matcher and deduction candidates
(views.py get_recipe_deduction_candidates) -/

/-- Exact case-insensitive name equality between the recipe ingredient name
and a grocery record. -/
def exactMatchB (target : String) (g : Grocery) : Bool :=
  pyLower target == pyLower g.grocery_name

/-- Partial match: either lower-cased name occurs inside the other. -/
def partialMatchB (target : String) (g : Grocery) : Bool :=
  strContainsSub (pyLower target) (pyLower g.grocery_name)
    || strContainsSub (pyLower g.grocery_name) (pyLower target)

/-- Partial but not exact, the condition under which the source appends. -/
def partialOnlyB (target : String) (g : Grocery) : Bool :=
  !exactMatchB target g && partialMatchB target g

/-- One iteration of the candidate-collecting loop: exact matches are
inserted at position 0, partial matches appended at the end. -/
def buildMatchesStep (target : String) (ms : List Grocery) (g : Grocery) : List Grocery :=
  if exactMatchB target g then g :: ms
  else if partialMatchB target g then ms ++ [g]
  else ms

/-- The matches list built by scanning the inventory in order. -/
def buildMatches (target : String) (inv : List Grocery) : List Grocery :=
  inv.foldl (buildMatchesStep target) []

/-- best_match of the source: matches[0] when the list is nonempty. -/
def findBestMatch (target : String) (inv : List Grocery) : Option Grocery :=
  (buildMatches target inv).head?

/-- Python round(x, 2): round half to even at two decimal places. -/
def round2 (q : ℚ) : ℚ :=
  let x := q * 100
  let n : ℤ := ⌊x⌋
  let r : ℤ :=
    if x - n < 1/2 then n
    else if 1/2 < x - n then n + 1
    else if n % 2 = 0 then n else n + 1
  (r : ℚ) / 100

/-- One serialized candidate of get_recipe_deduction_candidates. The
conversion note models the f-string Converted from quantity unit by its two
interpolated values. -/
structure Candidate where
  ingredient_name : String
  quantity_needed : ℚ
  unit : Option String
  best_match_id : Option Nat
  deduct_qty_suggestion : ℚ
  conversion_note : Option (ℚ × String)
deriving DecidableEq

/-- The per-ingredient body of the get_recipe_deduction_candidates loop:
conversion is attempted only when both unit fields are truthy (non-null,
non-empty) and differ case-insensitively. -/
def buildCandidate (ri : RecipeIngredient) (inv : List Grocery) : Candidate :=
  match findBestMatch ri.ingredient_name inv with
  | none =>
    { ingredient_name := ri.ingredient_name
      quantity_needed := ri.quantity
      unit := ri.unit
      best_match_id := none
      deduct_qty_suggestion := ri.quantity
      conversion_note := none }
  | some best =>
    match ri.unit with
    | none =>
      { ingredient_name := ri.ingredient_name
        quantity_needed := ri.quantity
        unit := ri.unit
        best_match_id := some best.id
        deduct_qty_suggestion := ri.quantity
        conversion_note := none }
    | some ru =>
      if ru ≠ "" ∧ best.unit ≠ "" ∧ pyLower ru ≠ pyLower best.unit then
        match convert_quantity ri.quantity ru best.unit (some ri.ingredient_name) with
        | some conv =>
          { ingredient_name := ri.ingredient_name
            quantity_needed := ri.quantity
            unit := ri.unit
            best_match_id := some best.id
            deduct_qty_suggestion := round2 conv
            conversion_note := some (ri.quantity, ru) }
        | none =>
          { ingredient_name := ri.ingredient_name
            quantity_needed := ri.quantity
            unit := ri.unit
            best_match_id := some best.id
            deduct_qty_suggestion := ri.quantity
            conversion_note := none }
      else
        { ingredient_name := ri.ingredient_name
          quantity_needed := ri.quantity
          unit := ri.unit
          best_match_id := some best.id
          deduct_qty_suggestion := ri.quantity
          conversion_note := none }

/-- views.py get_recipe_deduction_candidates: one candidate per recipe
ingredient, in order, matched against the requesting user\x27s inventory. -/
def get_recipe_deduction_candidates (uid : Nat) (ris : List RecipeIngredient)
    (store : List Grocery) : List Candidate :=
  ris.map (fun ri => buildCandidate ri (store.filter (fun g => g.user == uid)))


/-! ## Concrete records used by the claim theorems -/

/-- A Milk record with quantity 1 litre. -/
def c4MilkOne : Grocery := ⟨1, 7, "Milk", 1, "l", "2026-01-01", none, "Dairy"⟩

/-- A Milk record with quantity 2 litres. -/
def c4MilkTwo : Grocery := ⟨1, 7, "Milk", 2, "l", "2026-01-01", none, "Dairy"⟩

/-- First of two inventory records that both partially match milk. -/
def c5WholeMilk : Grocery := ⟨1, 7, "Whole Milk", 1, "l", "2026-01-01", none, "Dairy"⟩

/-- Second of two inventory records that both partially match milk. -/
def c5AlmondMilk : Grocery := ⟨2, 7, "Almond Milk", 1, "l", "2026-01-01", none, "Dairy"⟩

/-- First of two records whose names both match milk exactly, case folded. -/
def c6MilkA : Grocery := ⟨1, 7, "Milk", 1, "l", "2026-01-01", none, "Dairy"⟩

/-- Second of two records whose names both match milk exactly, case folded. -/
def c6MilkB : Grocery := ⟨2, 7, "MILK", 1, "l", "2026-01-01", none, "Dairy"⟩

/-- An existing Milk record kept in litres. -/
def c7MilkL : Grocery := ⟨1, 7, "Milk", 1, "l", "2026-01-01", none, "Dairy"⟩

/-- A scanned bill line of 500 ml Milk. -/
def c7MilkItem : BillItem := ⟨"Milk", 500, "ml", "2026-02-02", none, some "Dairy"⟩

/-- A Milk record before a partial deduction. -/
def c8Milk : Grocery := ⟨1, 7, "Milk", 2, "l", "2026-01-01", none, "Dairy"⟩

/-- The same Milk record after deducting half a litre. -/
def c8MilkAfter : Grocery := ⟨1, 7, "Milk", 3/2, "l", "2026-01-01", none, "Dairy"⟩

/-- A record owned by user 8, targeted by requests of user 7. -/
def c9Eggs : Grocery := ⟨5, 8, "Eggs", 6, "unit", "2026-01-01", none, "Dairy"⟩

/-- An inventory record matched by a recipe ingredient with a null unit. -/
def c10Flour : Grocery := ⟨3, 7, "Flour", 1, "kg", "2026-01-01", none, "Grains"⟩

/-! ## Helper lemmas about the conversion tables -/

theorem volume_to_ml_ne_zero {w : String} {f : ℚ} (h : volume_to_ml w = some f) : f ≠ 0 := by
  unfold volume_to_ml at h
  rcases hf : volume_to_ml_table.find? (fun p => p.1 == w) with _ | p
  · rw [hf] at h; exact Option.noConfusion h
  · rw [hf] at h
    injection h with h2
    have hp := List.mem_of_find?_eq_some hf
    rw [← h2]
    fin_cases hp <;> norm_num

theorem weight_to_g_ne_zero {w : String} {f : ℚ} (h : weight_to_g w = some f) : f ≠ 0 := by
  unfold weight_to_g at h
  rcases hf : weight_to_g_table.find? (fun p => p.1 == w) with _ | p
  · rw [hf] at h; exact Option.noConfusion h
  · rw [hf] at h
    injection h with h2
    have hp := List.mem_of_find?_eq_some hf
    rw [← h2]
    fin_cases hp <;> norm_num

theorem itemSpecific_diag (q : ℚ) (w nm : String) : itemSpecific q w w nm = none := by
  unfold itemSpecific
  split_ifs with h1 h2 h3 h4
  · exact absurd (h1.2.1.symm.trans h1.2.2) (by decide)
  · exact absurd (h2.2.1.symm.trans h2.2.2) (by decide)
  · exact absurd (h3.2.1.symm.trans h3.2.2) (by decide)
  · exact absurd (h4.2.1.symm.trans h4.2.2) (by decide)
  · rfl

theorem itemNameRes_diag (q : ℚ) (w : String) (nm : Option String) :
    itemNameRes q w w nm = none := by
  cases nm with
  | none => rfl
  | some s =>
    by_cases hs : s = ""
    · simp [itemNameRes, hs]
    · simp [itemNameRes, hs, itemSpecific_diag]

/-! ## Claim C1 -/

set_option maxHeartbeats 1000000 in
/-- Claim C1 counterexample: the source short-circuits only on raw string
equality; for the count-only pair Packet and packet, which differ raw but
agree after normalization, convert_quantity returns the Unconvertible
sentinel none rather than the quantity, refuting the claimed identity. -/
theorem C1_counterexample :
    convert_quantity 1 "Packet" "packet" none = none ∧
    (none : Option ℚ) ≠ some 1 := by
  exact ⟨by decide, by decide⟩

/-- Claim C1 as amended: convert returns q unchanged for raw-equal unit
strings, and for strings that agree after normalization provided the
normalized token is registered in the volume or weight factor table;
normalization-equal count-only tokens with raw-distinct spellings instead
fall through to the Unconvertible sentinel. -/
theorem C1_identity :
    (∀ (q : ℚ) (u : String) (nm : Option String),
      convert_quantity q u u nm = some q) ∧
    (∀ (q : ℚ) (u v : String) (nm : Option String),
      normalizeUnit u = normalizeUnit v →
      ((∃ f, volume_to_ml (normalizeUnit u) = some f) ∨
        (∃ f, weight_to_g (normalizeUnit u) = some f)) →
      convert_quantity q u v nm = some q) := by
  constructor
  · intro q u nm
    unfold convert_quantity
    rw [if_pos rfl]
  · intro q u v nm hnorm hsome
    by_cases huv : u = v
    · subst huv
      unfold convert_quantity
      rw [if_pos rfl]
    · unfold convert_quantity
      rw [if_neg huv]
      simp only [← hnorm, itemNameRes_diag]
      rcases hsome with ⟨f, hf⟩ | ⟨f, hf⟩
      · rw [hf]
        show some (q * f / f) = some q
        rw [mul_div_assoc, div_self (volume_to_ml_ne_zero hf), mul_one]
      · cases hvol : volume_to_ml (normalizeUnit u) with
        | some g =>
          show some (q * g / g) = some q
          rw [mul_div_assoc, div_self (volume_to_ml_ne_zero hvol), mul_one]
        | none =>
          rw [hf]
          show some (q * f / f) = some q
          rw [mul_div_assoc, div_self (weight_to_g_ne_zero hf), mul_one]

/-- Claim C1 witness: the amended identity applied where the raw tokens
differ but both normalize to the registered unit cup. -/
theorem C1_witness :
    convert_quantity 5 "Cups" "cup" (some "Bread") = some 5 :=
  C1_identity.2 5 "Cups" "cup" (some "Bread") rfl (Or.inl ⟨240, rfl⟩)

/-! ## Claim C2 -/

set_option maxHeartbeats 1600000 in
/-- Claim C2: the parser is NOT exception-free. On 1/0 cup Milk the
fraction branch divides by zero and only ValueError is caught, so the
ZeroDivisionError escapes; the remaining conjuncts evaluate the parser on
its two documented happy-path examples, pinning the embedding to the
source behavior. -/
theorem C2_parse_raises :
    parse_ingredient_string "1/0 cup Milk" = Except.error PyExc.zeroDivisionError ∧
    parse_ingredient_string "1 1/2 cup Milk" = Except.ok (3/2, "cup", "Milk") ∧
    parse_ingredient_string "200g Chicken" = Except.ok (200, "g", "Chicken") := by
  refine ⟨rfl, ?_, ?_⟩
  · rw [show parse_ingredient_string "1 1/2 cup Milk"
        = Except.ok ((1 : ℚ) + 1 / 2, "cup", "Milk") from rfl]
    norm_num
  · rw [show parse_ingredient_string "200g Chicken"
        = Except.ok ((200 : ℚ), "g", "Chicken") from rfl]

/-! ## Claim C3 -/

set_option maxHeartbeats 1600000 in
/-- Claim C3 counterexample: the claimed four-step resolution maps the
raw-equal pair packet and packet to none, but convert_quantity returns the
quantity, because the source returns early on raw-equal unit strings
before any resolution step runs. -/
theorem C3_counterexample :
    convertResolution 2 "packet" "packet" none = none ∧
    convert_quantity 2 "packet" "packet" none = some 2 := by
  exact ⟨rfl, rfl⟩

set_option maxHeartbeats 1600000 in
/-- Claim C3 as amended: whenever the two raw unit strings differ, so that
the early raw-equality return does not fire, convert_quantity resolves
exactly by the claimed staged order - item-specific override, same-class
volume then weight table, volume-weight bridge at density one, else none -
and the two concrete consequences named by the claim hold. -/
theorem C3_resolution :
    (∀ (q : ℚ) (u v : String) (nm : Option String), u ≠ v →
      convert_quantity q u v nm = convertResolution q u v nm) ∧
    convert_quantity (1/2) "cup" "kg" none = some (12/100) ∧
    convert_quantity 1 "packet" "slice" (some "Sliced Bread Packet") = some 15 := by
  refine ⟨?_, ?_, ?_⟩
  · intro q u v nm h
    unfold convert_quantity convertResolution
    rw [if_neg h]
  · rw [show convert_quantity (1/2) "cup" "kg" none
        = some ((1 : ℚ)/2 * 240 / 1000) from rfl]
    norm_num
  · rw [show convert_quantity 1 "packet" "slice" (some "Sliced Bread Packet")
        = some ((1 : ℚ) * 15) from rfl]
    norm_num

/-- Claim C3 witness: the amended equivalence applied at distinct raw
units. -/
theorem C3_witness :
    convert_quantity 1 "tsp" "l" none = convertResolution 1 "tsp" "l" none :=
  C3_resolution.1 1 "tsp" "l" none (by decide)

/-! ## Claim C4 -/

theorem deductStep_skip (uid : Nat) (st : DeductResult) (e : DeductionEntry)
    (h : e.grocery_id = none ∨ e.grocery_id = some 0 ∨ e.deduct_qty ≤ 0) :
    deductStep uid st e = st := by
  rcases e with ⟨gid, q⟩
  rcases h with h | h | h
  · simp only at h; subst h; rfl
  · simp only at h; subst h; simp [deductStep]
  · simp only at h
    cases gid with
    | none => rfl
    | some g =>
      simp only [deductStep]
      rw [if_pos (Or.inr h)]

/-- Claim C4: each deduction entry with a positive amount and an id
resolving to a record of the requesting user deletes the record and bumps
deletedCount when quantity is at most the amount, otherwise decrements the
quantity in place and bumps updatedCount; entries with missing, falsy or
unresolvable ids or non-positive amounts are skipped without disturbing
the rest of the batch, and the two concrete scenarios of the claim
evaluate as stated. -/
theorem C4_applyDeductions :
    (∀ (uid : Nat) (st : DeductResult) (e : DeductionEntry),
      e.grocery_id = none ∨ e.grocery_id = some 0 ∨ e.deduct_qty ≤ 0 →
      deductStep uid st e = st) ∧
    (∀ (uid : Nat) (st : DeductResult) (gid : Nat) (q : ℚ),
      gid ≠ 0 → 0 < q →
      st.store.find? (groceryKey uid gid) = none →
      deductStep uid st ⟨some gid, q⟩ = st) ∧
    (∀ (uid : Nat) (st : DeductResult) (gid : Nat) (q : ℚ) (g : Grocery),
      gid ≠ 0 → 0 < q →
      st.store.find? (groceryKey uid gid) = some g →
      g.quantity ≤ q →
      deductStep uid st ⟨some gid, q⟩ =
        ⟨st.store.eraseP (groceryKey uid gid), st.updated_count, st.deleted_count + 1⟩) ∧
    (∀ (uid : Nat) (st : DeductResult) (gid : Nat) (q : ℚ) (g : Grocery),
      gid ≠ 0 → 0 < q →
      st.store.find? (groceryKey uid gid) = some g →
      q < g.quantity →
      deductStep uid st ⟨some gid, q⟩ =
        ⟨updateFirst (groceryKey uid gid)
            (fun r => { r with quantity := r.quantity - q }) st.store,
          st.updated_count + 1, st.deleted_count⟩) ∧
    (∀ (uid : Nat) (ds1 ds2 : List DeductionEntry) (e : DeductionEntry) (store : List Grocery),
      e.grocery_id = none ∨ e.grocery_id = some 0 ∨ e.deduct_qty ≤ 0 →
      deduct_ingredients uid (ds1 ++ e :: ds2) store = deduct_ingredients uid (ds1 ++ ds2) store) ∧
    deduct_ingredients 7 [⟨some 1, 1⟩] [c4MilkOne] = ⟨[], 0, 1⟩ ∧
    deduct_ingredients 7 [⟨some 1, 1/2⟩] [c4MilkTwo] =
      ⟨[⟨1, 7, "Milk", 3/2, "l", "2026-01-01", none, "Dairy"⟩], 1, 0⟩ := by
  refine ⟨deductStep_skip, ?_, ?_, ?_, ?_, ?_, ?_⟩
  · intro uid st gid q hgid hq hfind
    simp only [deductStep]
    rw [if_neg (not_or.mpr ⟨hgid, not_le.mpr hq⟩), hfind]
  · intro uid st gid q g hgid hq hfind hle
    simp only [deductStep]
    rw [if_neg (not_or.mpr ⟨hgid, not_le.mpr hq⟩), hfind]
    simp only [if_pos hle]
  · intro uid st gid q g hgid hq hfind hlt
    simp only [deductStep]
    rw [if_neg (not_or.mpr ⟨hgid, not_le.mpr hq⟩), hfind]
    simp only [if_neg (not_le.mpr hlt)]
  · intro uid ds1 ds2 e store h
    unfold deduct_ingredients
    rw [List.foldl_append, List.foldl_append, List.foldl_cons, deductStep_skip _ _ _ h]
  · norm_num [deduct_ingredients, deductStep, groceryKey, c4MilkOne, List.find?, List.eraseP]
  · norm_num [deduct_ingredients, deductStep, groceryKey, c4MilkTwo, List.find?, updateFirst]

/-- Claim C4 witness: the skip branch applied to an entry with a missing
id. -/
theorem C4_witness :
    deductStep 7 ⟨[c4MilkOne], 0, 0⟩ ⟨none, 5⟩ = ⟨[c4MilkOne], 0, 0⟩ :=
  C4_applyDeductions.1 7 ⟨[c4MilkOne], 0, 0⟩ ⟨none, 5⟩ (Or.inl rfl)

/-! ## Matcher helper lemmas -/

theorem head?_append_left {α : Type} (l1 l2 : List α) (h : l1 ≠ []) :
    (l1 ++ l2).head? = l1.head? := by
  cases l1 with
  | nil => exact absurd rfl h
  | cons a t => rfl

theorem head?_filter_eq_find? {α : Type} (p : α → Bool) (l : List α) :
    (l.filter p).head? = l.find? p := by
  induction l with
  | nil => rfl
  | cons a t ih =>
    by_cases h : p a
    · simp [List.filter_cons, h, List.find?_cons_of_pos]
    · have hb : p a = false := by simp [h]
      rw [List.filter_cons, hb, List.find?_cons_of_neg _ (by simp [hb])]
      simp only [Bool.false_eq_true, ite_false]
      exact ih

theorem buildMatches_foldl (target : String) (inv : List Grocery) : ∀ acc : List Grocery,
    inv.foldl (buildMatchesStep target) acc =
      (inv.filter (exactMatchB target)).reverse ++ acc ++ inv.filter (partialOnlyB target) := by
  induction inv with
  | nil => intro acc; simp
  | cons g rest ih =>
    intro acc
    by_cases he : exactMatchB target g
    · have hp : partialOnlyB target g = false := by simp [partialOnlyB, he]
      simp only [List.foldl_cons, buildMatchesStep, he, if_true, List.filter_cons, hp,
        Bool.false_eq_true, ite_false, ite_true]
      rw [ih]
      simp
    · by_cases hq : partialMatchB target g
      · have hp : partialOnlyB target g = true := by simp [partialOnlyB, he, hq]
        simp only [List.foldl_cons, buildMatchesStep, he, hq, Bool.false_eq_true, ite_false,
          ite_true, List.filter_cons, hp]
        rw [ih]
        simp
      · have hp : partialOnlyB target g = false := by simp [partialOnlyB, he, hq]
        simp only [List.foldl_cons, buildMatchesStep, he, hq, Bool.false_eq_true, ite_false,
          List.filter_cons, hp]
        exact ih acc

theorem buildMatches_closed (t : String) (inv : List Grocery) :
    buildMatches t inv =
      (inv.filter (exactMatchB t)).reverse ++ inv.filter (partialOnlyB t) := by
  have h := buildMatches_foldl t inv []
  simpa [buildMatches] using h

/-! ## Claim C6 -/

/-- Claim C6: the scan inserts exact case-insensitive matches at the front
and appends partial substring matches at the end, so the candidate list is
the reversed run of exact matches followed by the partial-only matches in
scan order; hence with several exact matches position 0 holds the LAST
exact match of the scan, and the best match is the head of the candidate
list, or none when it is empty. -/
theorem C6_matcher :
    (∀ (t : String) (inv : List Grocery),
      buildMatches t inv =
        (inv.filter (exactMatchB t)).reverse ++ inv.filter (partialOnlyB t)) ∧
    (∀ (t : String) (inv : List Grocery),
      findBestMatch t inv = (buildMatches t inv).head?) ∧
    (∀ (t : String) (inv : List Grocery),
      inv.filter (exactMatchB t) ≠ [] →
      findBestMatch t inv = (inv.filter (exactMatchB t)).getLast?) ∧
    (∀ (t : String) (inv : List Grocery),
      buildMatches t inv = [] → findBestMatch t inv = none) := by
  refine ⟨buildMatches_closed, fun t inv => rfl, ?_, ?_⟩
  · intro t inv hne
    rw [findBestMatch, buildMatches_closed,
      head?_append_left _ _ (by simpa using hne), List.head?_reverse]
  · intro t inv h
    rw [findBestMatch, h]
    rfl

set_option maxHeartbeats 1000000 in
/-- Claim C6 witness: two exact matches; the chosen best match is the last
one the scan encountered. -/
theorem C6_witness :
    findBestMatch "milk" [c6MilkA, c6MilkB] =
      ([c6MilkA, c6MilkB].filter (exactMatchB "milk")).getLast? :=
  C6_matcher.2.2.1 "milk" [c6MilkA, c6MilkB] (by decide)

/-! ## Claim C5 -/

set_option maxHeartbeats 1000000 in
/-- Claim C5 counterexample: with inventory Whole Milk then Almond Milk
and target milk, no exact match exists and the matcher returns the FIRST
partial match Whole Milk, not the last one the claim names. -/
theorem C5_counterexample :
    findBestMatch "milk" [c5WholeMilk, c5AlmondMilk] = some c5WholeMilk ∧
    c5WholeMilk ≠ c5AlmondMilk := by
  exact ⟨by decide, by decide⟩

/-- Claim C5 as amended: when the scan finds no exact case-insensitive
match, the chosen best match is the FIRST item scanned that qualifies as a
partial match, because partial matches are appended at the end of the
candidate list and position 0 is returned. -/
theorem C5_first_partial :
    ∀ (t : String) (inv : List Grocery),
      (∀ g ∈ inv, exactMatchB t g = false) →
      findBestMatch t inv = inv.find? (partialMatchB t) := by
  intro t inv hne
  have he : inv.filter (exactMatchB t) = [] := by
    rw [List.filter_eq_nil_iff]
    intro a ha
    simp [hne a ha]
  have hp : inv.filter (partialOnlyB t) = inv.filter (partialMatchB t) :=
    List.filter_congr (fun g hg => by simp [partialOnlyB, hne g hg])
  rw [findBestMatch, buildMatches_closed, he, hp]
  simp only [List.reverse_nil, List.nil_append]
  exact head?_filter_eq_find? _ _

set_option maxHeartbeats 1000000 in
/-- Claim C5 witness: the amended rule applied to the inventory of the
claim, returning the first partial match. -/
theorem C5_witness :
    findBestMatch "milk" [c5WholeMilk, c5AlmondMilk] =
      [c5WholeMilk, c5AlmondMilk].find? (partialMatchB "milk") :=
  C5_first_partial "milk" [c5WholeMilk, c5AlmondMilk] (by decide)

/-! ## Claim C7 -/

theorem save_bill_step_count (uid : Nat) (st : BillState) (item : BillItem) :
    (save_bill_step uid st item).saved_count = st.saved_count + 1 := by
  unfold save_bill_step
  rcases hfind : st.store.find? (billNameKey uid (pyStrip item.name)) with _ | ex
  · rfl
  · simp only []
    by_cases hu : pyLower ex.unit = pyLower item.unit
    · rw [if_pos hu]
    · rw [if_neg hu]
      rcases hconv : convert_quantity item.quantity item.unit ex.unit
          (some (pyStrip item.name)) with _ | cq
      · rfl
      · rfl

set_option maxHeartbeats 1000000 in
theorem C7_concrete :
    save_bill_items 7 [c7MilkItem] [c7MilkL] 10 =
      ⟨[⟨1, 7, "Milk", 3/2, "l", "2026-01-01", none, "Dairy"⟩], 10, 1⟩ := by
  unfold save_bill_items
  simp only [List.foldl_cons, List.foldl_nil]
  unfold save_bill_step
  rw [show (List.find? (billNameKey 7 (pyStrip c7MilkItem.name))
      (BillState.mk [c7MilkL] 10 0).store) = some c7MilkL by decide]
  simp only []
  rw [if_neg (by decide : ¬ pyLower c7MilkL.unit = pyLower c7MilkItem.unit)]
  rw [show convert_quantity c7MilkItem.quantity c7MilkItem.unit c7MilkL.unit
      (some (pyStrip c7MilkItem.name)) = some ((500 : ℚ) * 1 / 1000) from rfl]
  simp only []
  rw [show updateFirst (billNameKey 7 (pyStrip c7MilkItem.name))
      (fun g => { g with quantity := g.quantity + (500 : ℚ) * 1 / 1000 }) [c7MilkL]
      = [⟨1, 7, "Milk", (1 : ℚ) + (500 : ℚ) * 1 / 1000, "l", "2026-01-01", none, "Dairy"⟩]
      from rfl]
  norm_num

/-- Claim C7: for each scanned bill item, a same-name owner-scoped record
with unit equal case-insensitively absorbs the raw quantity; with a
different unit the scanned quantity is converted to the existing unit with
the stripped item name as hint and added on success, while a failed
conversion or a missing name match creates a fresh record; the processed
counter equals the number of input items regardless of outcome, and the
500 ml Milk against 1 l Milk scenario merges into a single record of 1.5
litres. -/
theorem C7_mergeOrCreate :
    (∀ (uid : Nat) (st : BillState) (item : BillItem) (ex : Grocery),
      st.store.find? (billNameKey uid (pyStrip item.name)) = some ex →
      pyLower ex.unit = pyLower item.unit →
      save_bill_step uid st item =
        { st with
          store := updateFirst (billNameKey uid (pyStrip item.name))
            (fun g => { g with quantity := g.quantity + item.quantity }) st.store
          saved_count := st.saved_count + 1 }) ∧
    (∀ (uid : Nat) (st : BillState) (item : BillItem) (ex : Grocery) (cq : ℚ),
      st.store.find? (billNameKey uid (pyStrip item.name)) = some ex →
      pyLower ex.unit ≠ pyLower item.unit →
      convert_quantity item.quantity item.unit ex.unit (some (pyStrip item.name)) = some cq →
      save_bill_step uid st item =
        { st with
          store := updateFirst (billNameKey uid (pyStrip item.name))
            (fun g => { g with quantity := g.quantity + cq }) st.store
          saved_count := st.saved_count + 1 }) ∧
    (∀ (uid : Nat) (st : BillState) (item : BillItem) (ex : Grocery),
      st.store.find? (billNameKey uid (pyStrip item.name)) = some ex →
      pyLower ex.unit ≠ pyLower item.unit →
      convert_quantity item.quantity item.unit ex.unit (some (pyStrip item.name)) = none →
      save_bill_step uid st item =
        ⟨st.store ++ [newGroceryOfItem uid st.next_id item],
          st.next_id + 1, st.saved_count + 1⟩) ∧
    (∀ (uid : Nat) (st : BillState) (item : BillItem),
      st.store.find? (billNameKey uid (pyStrip item.name)) = none →
      save_bill_step uid st item =
        ⟨st.store ++ [newGroceryOfItem uid st.next_id item],
          st.next_id + 1, st.saved_count + 1⟩) ∧
    (∀ (uid : Nat) (items : List BillItem) (store : List Grocery) (sid : Nat),
      (save_bill_items uid items store sid).saved_count = items.length) ∧
    save_bill_items 7 [c7MilkItem] [c7MilkL] 10 =
      ⟨[⟨1, 7, "Milk", 3/2, "l", "2026-01-01", none, "Dairy"⟩], 10, 1⟩ := by
  refine ⟨?_, ?_, ?_, ?_, ?_, C7_concrete⟩
  · intro uid st item ex hfind hu
    unfold save_bill_step
    rw [hfind]
    simp only []
    rw [if_pos hu]
  · intro uid st item ex cq hfind hu hconv
    unfold save_bill_step
    rw [hfind]
    simp only []
    rw [if_neg hu, hconv]
  · intro uid st item ex hfind hu hconv
    unfold save_bill_step
    rw [hfind]
    simp only []
    rw [if_neg hu, hconv]
  · intro uid st item hfind
    unfold save_bill_step
    rw [hfind]
  · intro uid items store sid
    unfold save_bill_items
    suffices h : ∀ (its : List BillItem) (st : BillState),
        (its.foldl (save_bill_step uid) st).saved_count = st.saved_count + its.length by
      simpa using h items ⟨store, sid, 0⟩
    intro its
    induction its with
    | nil => intro st; simp
    | cons it rest ih =>
      intro st
      simp only [List.foldl_cons, ih, save_bill_step_count, List.length_cons]
      omega

/-- Claim C7 witness: the create branch applied to an empty inventory. -/
theorem C7_witness :
    save_bill_step 7 ⟨[], 10, 0⟩ c7MilkItem =
      ⟨[newGroceryOfItem 7 10 c7MilkItem], 11, 1⟩ :=
  C7_mergeOrCreate.2.2.2.1 7 ⟨[], 10, 0⟩ c7MilkItem rfl

/-! ## Membership helper lemmas for the store operations -/

theorem mem_updateFirst {α : Type} {p : α → Bool} {f : α → α} {g : α} :
    ∀ {l : List α}, l.find? p = some g →
      ∀ {r : α}, r ∈ updateFirst p f l → r ∈ l ∨ r = f g := by
  intro l
  induction l with
  | nil => intro h; exact absurd h (by simp)
  | cons a t ih =>
    intro hfind r hr
    by_cases hp : p a
    · rw [List.find?_cons_of_pos _ hp] at hfind
      injection hfind with hg
      subst hg
      unfold updateFirst at hr
      rw [if_pos hp] at hr
      rcases List.mem_cons.mp hr with h | h
      · exact Or.inr h
      · exact Or.inl (List.mem_cons_of_mem _ h)
    · rw [List.find?_cons_of_neg _ (by simp [hp])] at hfind
      unfold updateFirst at hr
      rw [if_neg hp] at hr
      rcases List.mem_cons.mp hr with h | h
      · exact Or.inl (h ▸ List.mem_cons_self _ _)
      · rcases ih hfind h with h2 | h2
        · exact Or.inl (List.mem_cons_of_mem _ h2)
        · exact Or.inr h2

theorem mem_updateFirst_iff {α : Type} (p : α → Bool) (f : α → α) {r : α}
    (hr : p r = false) (hf : ∀ x, p x = true → p (f x) = true) :
    ∀ (l : List α), (r ∈ updateFirst p f l ↔ r ∈ l) := by
  intro l
  induction l with
  | nil => exact Iff.rfl
  | cons a t ih =>
    unfold updateFirst
    by_cases hp : p a
    · rw [if_pos hp]
      simp only [List.mem_cons]
      constructor
      · rintro (h | h)
        · exact absurd (h ▸ hf a hp) (by simp [hr])
        · exact Or.inr h
      · rintro (h | h)
        · exact absurd (h ▸ hp) (by simp [hr])
        · exact Or.inr h
    · rw [if_neg hp]
      simp only [List.mem_cons, ih]

theorem mem_eraseP_iff {α : Type} {p : α → Bool} {r : α} (hr : p r = false) :
    ∀ (l : List α), (r ∈ l.eraseP p ↔ r ∈ l) := by
  intro l
  induction l with
  | nil => exact Iff.rfl
  | cons a t ih =>
    rw [List.eraseP_cons]
    by_cases hp : p a
    · simp only [hp, cond_true]
      constructor
      · exact List.mem_cons_of_mem a
      · intro h
        rcases List.mem_cons.mp h with h2 | h2
        · exact absurd (h2 ▸ hp) (by simp [hr])
        · exact h2
    · have hpa : p a = false := by simp [hp]
      simp only [hpa, cond_false, List.mem_cons, ih]

/-! ## Claim C8 -/

theorem deductStep_pos_or_mem (uid : Nat) (st : DeductResult) (e : DeductionEntry)
    {r : Grocery} (hr : r ∈ (deductStep uid st e).store) :
    0 < r.quantity ∨ r ∈ st.store := by
  rcases e with ⟨gid, q⟩
  cases gid with
  | none => exact Or.inr hr
  | some gidv =>
    unfold deductStep at hr
    simp only [] at hr
    by_cases hskip : gidv = 0 ∨ q ≤ 0
    · rw [if_pos hskip] at hr
      exact Or.inr hr
    · rw [if_neg hskip] at hr
      rcases hfind : st.store.find? (groceryKey uid gidv) with _ | g
      · rw [hfind] at hr
        exact Or.inr hr
      · rw [hfind] at hr
        simp only [] at hr
        by_cases hle : g.quantity ≤ q
        · rw [if_pos hle] at hr
          exact Or.inr (List.mem_of_mem_eraseP hr)
        · rw [if_neg hle] at hr
          rcases mem_updateFirst hfind hr with h | h
          · exact Or.inr h
          · left
            rw [h]
            show 0 < g.quantity - q
            have hlt := not_le.mp hle
            linarith

/-- Claim C8: after deduct_ingredients runs, every record in the surviving
store either carries a strictly positive quantity or sits in the store
exactly as it was before the request; in particular every record the
operation writes back is strictly positive, because a deduction that would
leave a quantity at or below zero deletes the record instead. -/
theorem C8_positive_or_untouched :
    ∀ (uid : Nat) (ds : List DeductionEntry) (store : List Grocery) (r : Grocery),
      r ∈ (deduct_ingredients uid ds store).store →
      0 < r.quantity ∨ r ∈ store := by
  intro uid ds store r
  unfold deduct_ingredients
  suffices h : ∀ (ds : List DeductionEntry) (st : DeductResult),
      r ∈ (ds.foldl (deductStep uid) st).store → 0 < r.quantity ∨ r ∈ st.store by
    exact h ds ⟨store, 0, 0⟩
  intro ds2
  induction ds2 with
  | nil => intro st hr; exact Or.inr hr
  | cons e rest ih =>
    intro st hr
    rcases ih (deductStep uid st e) hr with h | h
    · exact Or.inl h
    · exact deductStep_pos_or_mem uid st e h

/-- Claim C8 witness: the record surviving the 2.0 minus 0.5 deduction is
covered by the invariant. -/
theorem C8_witness :
    0 < c8MilkAfter.quantity ∨ c8MilkAfter ∈ [c8Milk] := by
  refine C8_positive_or_untouched 7 [⟨some 1, 1/2⟩] [c8Milk] c8MilkAfter ?_
  have hstore : (deduct_ingredients 7 [⟨some 1, 1/2⟩] [c8Milk]).store = [c8MilkAfter] := by
    norm_num [deduct_ingredients, deductStep, groceryKey, c8Milk, c8MilkAfter,
      List.find?, updateFirst]
  rw [hstore]
  exact List.mem_singleton.mpr rfl

/-! ## Claim C9 -/

theorem deductStep_other_user {uid : Nat} (st : DeductResult) (e : DeductionEntry)
    {r : Grocery} (hr : r.user ≠ uid) :
    (r ∈ (deductStep uid st e).store ↔ r ∈ st.store) := by
  have hpr : ∀ gid, groceryKey uid gid r = false := by
    intro gid
    simp only [groceryKey, Bool.and_eq_false_iff, beq_eq_false_iff_ne]
    exact Or.inr hr
  rcases e with ⟨gid, q⟩
  cases gid with
  | none => exact Iff.rfl
  | some gidv =>
    unfold deductStep
    simp only []
    by_cases hskip : gidv = 0 ∨ q ≤ 0
    · rw [if_pos hskip]
    · rw [if_neg hskip]
      rcases hfind : st.store.find? (groceryKey uid gidv) with _ | g
      · exact Iff.rfl
      · simp only []
        by_cases hle : g.quantity ≤ q
        · rw [if_pos hle]
          exact mem_eraseP_iff (hpr gidv) st.store
        · rw [if_neg hle]
          exact mem_updateFirst_iff (groceryKey uid gidv)
            (fun x => { x with quantity := x.quantity - q }) (hpr gidv) (fun x hx => hx) st.store

theorem save_bill_step_other_user {uid : Nat} (st : BillState) (item : BillItem)
    {r : Grocery} (hr : r.user ≠ uid) :
    (r ∈ (save_bill_step uid st item).store ↔ r ∈ st.store) := by
  have hpr : ∀ nm, billNameKey uid nm r = false := by
    intro nm
    simp only [billNameKey, Bool.and_eq_false_iff, beq_eq_false_iff_ne]
    exact Or.inl hr
  have hnew : ∀ nid, (r ∈ st.store ++ [newGroceryOfItem uid nid item] ↔ r ∈ st.store) := by
    intro nid
    simp only [List.mem_append, List.mem_singleton]
    constructor
    · rintro (h | h)
      · exact h
      · exact absurd (congrArg Grocery.user h) (by simp [newGroceryOfItem, hr])
    · exact Or.inl
  unfold save_bill_step
  rcases hfind : st.store.find? (billNameKey uid (pyStrip item.name)) with _ | ex
  · exact hnew st.next_id
  · simp only []
    by_cases hu : pyLower ex.unit = pyLower item.unit
    · rw [if_pos hu]
      exact mem_updateFirst_iff (billNameKey uid (pyStrip item.name))
        (fun g => { g with quantity := g.quantity + item.quantity }) (hpr _)
        (fun x hx => hx) st.store
    · rw [if_neg hu]
      rcases hconv : convert_quantity item.quantity item.unit ex.unit
          (some (pyStrip item.name)) with _ | cq
      · exact hnew st.next_id
      · exact mem_updateFirst_iff (billNameKey uid (pyStrip item.name))
          (fun g => { g with quantity := g.quantity + cq }) (hpr _)
          (fun x hx => hx) st.store

/-- Claim C9: both deduct_ingredients and save_bill_items read and write
only records of the requesting user; a record owned by a different user
belongs to the final store exactly when it belonged to the initial one, so
cross-user entries are skipped and the merge never touches or creates
another user record. -/
theorem C9_user_scoping :
    (∀ (uid : Nat) (ds : List DeductionEntry) (store : List Grocery) (r : Grocery),
      r.user ≠ uid →
      (r ∈ (deduct_ingredients uid ds store).store ↔ r ∈ store)) ∧
    (∀ (uid : Nat) (items : List BillItem) (store : List Grocery) (sid : Nat) (r : Grocery),
      r.user ≠ uid →
      (r ∈ (save_bill_items uid items store sid).store ↔ r ∈ store)) := by
  constructor
  · intro uid ds store r hr
    unfold deduct_ingredients
    suffices h : ∀ (ds : List DeductionEntry) (st : DeductResult),
        (r ∈ (ds.foldl (deductStep uid) st).store ↔ r ∈ st.store) by
      exact h ds ⟨store, 0, 0⟩
    intro ds2
    induction ds2 with
    | nil => intro st; exact Iff.rfl
    | cons e rest ih =>
      intro st
      exact (ih (deductStep uid st e)).trans (deductStep_other_user st e hr)
  · intro uid items store sid r hr
    unfold save_bill_items
    suffices h : ∀ (its : List BillItem) (st : BillState),
        (r ∈ (its.foldl (save_bill_step uid) st).store ↔ r ∈ st.store) by
      exact h items ⟨store, sid, 0⟩
    intro its
    induction its with
    | nil => intro st; exact Iff.rfl
    | cons it rest ih =>
      intro st
      exact (ih (save_bill_step uid st it)).trans (save_bill_step_other_user st it hr)

/-- Claim C9 witness: a deduction of user 7 naming the id of a record that
belongs to user 8 leaves that record in place. -/
theorem C9_witness :
    (c9Eggs ∈ (deduct_ingredients 7 [⟨some 5, 6⟩] [c9Eggs]).store ↔ c9Eggs ∈ [c9Eggs]) :=
  C9_user_scoping.1 7 [⟨some 5, 6⟩] [c9Eggs] c9Eggs (by decide)

/-! ## Claim C10 -/

/-- Claim C10: when the matcher finds an inventory item but the recipe
ingredient unit is null or empty, or the matched item unit is empty, no
conversion is attempted: the suggested deduction quantity stays the raw
recipe quantity and the conversion note is absent. -/
theorem C10_null_unit_no_conversion :
    ∀ (ri : RecipeIngredient) (inv : List Grocery) (g : Grocery),
      findBestMatch ri.ingredient_name inv = some g →
      (ri.unit = none ∨ ri.unit = some "" ∨ g.unit = "") →
      (buildCandidate ri inv).best_match_id = some g.id ∧
      (buildCandidate ri inv).deduct_qty_suggestion = ri.quantity ∧
      (buildCandidate ri inv).conversion_note = none := by
  intro ri inv g hfind hcase
  unfold buildCandidate
  rw [hfind]
  rcases hcase with h | h | h
  · rw [h]
    exact ⟨rfl, rfl, rfl⟩
  · rw [h]
    simp only []
    rw [if_neg (by simp)]
    exact ⟨rfl, rfl, rfl⟩
  · rcases hru : ri.unit with _ | ru
    · exact ⟨rfl, rfl, rfl⟩
    · simp only []
      rw [if_neg (by simp [h])]
      exact ⟨rfl, rfl, rfl⟩

set_option maxHeartbeats 1000000 in
/-- Claim C10 witness: a matched ingredient whose recipe unit is null
keeps the raw quantity and carries no note. -/
theorem C10_witness :
    (buildCandidate ⟨"Flour", 2, none⟩ [c10Flour]).best_match_id = some c10Flour.id ∧
    (buildCandidate ⟨"Flour", 2, none⟩ [c10Flour]).deduct_qty_suggestion = (2 : ℚ) ∧
    (buildCandidate ⟨"Flour", 2, none⟩ [c10Flour]).conversion_note = none :=
  C10_null_unit_no_conversion ⟨"Flour", 2, none⟩ [c10Flour] c10Flour (by decide) (Or.inl rfl)
